import Mathlib

/-!
Shallow embedding of the core logic of the planetary-computer-apis repository.

Strings are modelled as `List Char`.  Python functions that can raise are
modelled with `Option`/`Except`.  The embedding covers:

* `pcfuncs/animation/models.py` — render-parameter parsing, request
  validation, re-encoding, frame capping;
* `pccommon/pccommon/render.py` — `DefaultRenderConfig`, the static
  per-collection render-configuration table, and the `BlobCDN` URL rewriter;
* `pcfuncs/funclib/stamps/progress_bar.py` — the progress-bar frame stamp
  (real-valued arithmetic is modelled over `ℚ`; Python `int()` truncation
  toward zero is modelled by `pyInt`);
* `pctiler/pctiler/endpoints/item.py` — the `/map` endpoint's
  configuration lookup and 404 behaviour.
-/

/-- Python `str.split(sep)` for a one-character separator, over `List Char`.
`splitOnChar sep ""` is `[""]`, exactly as in Python. -/
def splitOnChar (sep : Char) : List Char → List (List Char)
  | [] => [[]]
  | c :: rest =>
    let r := splitOnChar sep rest
    if c = sep then [] :: r
    else
      match r with
      | h :: t => (c :: h) :: t
      | [] => [[c]]

/-- The unpacking `k, v = p.split("=")` in `_get_render_options`
(`pcfuncs/animation/models.py`): succeeds exactly when the split yields two
parts, i.e. when `p` holds exactly one `'='`. -/
def splitEq (p : List Char) : Option (List Char × List Char) :=
  match splitOnChar '=' p with
  | [k, v] => some (k, v)
  | _ => none

/-- The body of the loop in `_get_render_options`: `if k not in result:
result[k] = []` followed by `result[k].append(v)`.  The mapping is an
association list in key-first-seen order, as a Python dict is. -/
def addOption (m : List (List Char × List (List Char))) (k v : List Char) :
    List (List Char × List (List Char)) :=
  if (m.lookup k).isSome then
    m.map (fun kv => if kv.1 = k then (kv.1, kv.2 ++ [v]) else kv)
  else m ++ [(k, [v])]

/-- The loop of `_get_render_options` over the `'&'`-separated segments. -/
def parseSegs (m : List (List Char × List (List Char))) :
    List (List Char) → Option (List (List Char × List (List Char)))
  | [] => some m
  | p :: rest =>
    match splitEq p with
    | none => none
    | some kv => parseSegs (addOption m kv.1 kv.2) rest

/-- `_get_render_options` (`pcfuncs/animation/models.py`): split on `'&'`,
then on `'='`, building a key → ordered list of values mapping; `none` when
some segment does not hold exactly one `'='`. -/
def get_render_options (s : List Char) : Option (List (List Char × List (List Char))) :=
  parseSegs [] (splitOnChar '&' s)

/-- The keys of the `_deltas` dict (`pcfuncs/animation/models.py`), in
insertion order.  The claims only concern the key set, not the
`relativedelta` values. -/
def unitKeys : List (List Char) :=
  [("mins").data, ("hours").data, ("days").data, ("weeks").data,
   ("months").data, ("years").data]

/-- The `"collection"` key used by the validators and accessors of
`AnimationRequest`. -/
def collectionKey : List Char := ("collection").data

/-- `AnimationRequest._validate_render_params`: any parse failure, a missing
`collection` key, or a `collection` key with value-count ≠ 1 rejects. -/
def validate_render_params (v : List Char) : Except (List Char) (List Char) :=
  match get_render_options v with
  | none => Except.error (("Invalid render_params").data)
  | some m =>
    match m.lookup collectionKey with
    | none => Except.error (("Missing collection in render_params").data)
    | some l =>
      if l.length ≠ 1 then Except.error (("Multiple collections in render_params").data)
      else Except.ok v

/-- `AnimationRequest._validate_unit`: the unit must be a key of `_deltas`;
the error message enumerates the valid keys. -/
def validate_unit (v : List Char) : Except (List Char) (List Char) :=
  if v ∈ unitKeys then Except.ok v
  else Except.error ((("Invalid unit. Must be one of: ").data) ++
    List.intercalate ((", ").data) unitKeys)

/-- Pydantic construction of an `AnimationRequest`, restricted to the two
custom validators: the request is accepted exactly when both accept. -/
def animationRequestAccepted (render_params unit : List Char) : Bool :=
  (validate_render_params render_params).isOk && (validate_unit unit).isOk

/-- `AnimationRequest.get_collection`: `_get_render_options(...)["collection"][0]`,
with the possible `KeyError`/`IndexError` modelled by `Option`. -/
def get_collection (v : List Char) : Option (List Char) :=
  (get_render_options v).bind
    (fun m => (m.lookup collectionKey).bind (fun l => l.head?))

/-- The characters `urllib.parse.quote` leaves untouched: the unreserved set
together with the default `safe="/"`. -/
def quoteSafe : List Char :=
  ("ABCDEFGHIJKLMNOPQRSTUVWXYZabcdefghijklmnopqrstuvwxyz0123456789_.-~/").data

/-- Upper-case hexadecimal digit, as used by `urllib.parse.quote`. -/
def hexDigit (n : Nat) : Char := (("0123456789ABCDEF").data).getD n '0'

/-- UTF-8 encoding of one code point, as Python encodes a `str` before
percent-encoding. -/
def utf8Bytes (c : Char) : List Nat :=
  let n := c.toNat
  if n < 0x80 then [n]
  else if n < 0x800 then [0xC0 + n / 0x40, 0x80 + n % 0x40]
  else if n < 0x10000 then
    [0xE0 + n / 0x1000, 0x80 + (n / 0x40) % 0x40, 0x80 + n % 0x40]
  else
    [0xF0 + n / 0x40000, 0x80 + (n / 0x1000) % 0x40,
     0x80 + (n / 0x40) % 0x40, 0x80 + n % 0x40]

/-- `urllib.parse.quote` on one character. -/
def quoteChar (c : Char) : List Char :=
  if c ∈ quoteSafe then [c]
  else (utf8Bytes c).flatMap (fun b => ['%', hexDigit (b / 16), hexDigit (b % 16)])

/-- `urllib.parse.quote` with the default `safe="/"`. -/
def pyQuote (s : List Char) : List Char := s.flatMap quoteChar

/-- `AnimationRequest.get_encoded_render_params`: re-serialize the parsed
mapping as `key=value` pairs (values percent-encoded), expanding repeated
keys, then append `tile_scale=2` and join with `'&'`. -/
def get_encoded_render_params (v : List Char) : Option (List Char) :=
  (get_render_options v).map (fun m =>
    List.intercalate (['&'])
      ((m.flatMap (fun kv => kv.2.map (fun x => kv.1 ++ '=' :: pyQuote x))) ++
        [(("tile_scale=2").data)]))

/-- Modelled from the spec: `MAX_FRAMES` lives in
`pcfuncs/animation/constants.py`, which is not under `src/`.  The spec fixes
it as a process-wide constant and its examples use the value 100. -/
def MAX_FRAMES : Int := 100

/-- `AnimationRequest.get_valid_frames`: `min(self.frames, MAX_FRAMES)`. -/
def get_valid_frames (frames : Int) : Int := min frames MAX_FRAMES

/-- Values of the `render_params` dict of a `DefaultRenderConfig`
(`pccommon/pccommon/render.py`): the table uses strings, numbers, and
numeric lists. -/
inductive ParamValue where
  | str (s : List Char)
  | num (n : Int)
  | numList (l : List Int)
deriving DecidableEq

/-- `DefaultRenderConfig` (`pccommon/pccommon/render.py`), with the same
fields and defaults.  `float` coordinates are modelled over `ℚ`. -/
structure DefaultRenderConfig where
  render_params : List (List Char × ParamValue)
  minzoom : Int
  assets : Option (List (List Char)) := none
  maxzoom : Option Int := some 18
  create_links : Bool := true
  has_mosaic : Bool := false
  mosaic_preview_zoom : Option Int := none
  mosaic_preview_coords : Option (List ℚ) := none
  requires_token : Bool := false
  hidden : Bool := false
deriving DecidableEq

/-- Modelled from the spec: `get_param_str` is imported from
`pccommon.utils`, which is not under `src/`.  Spec §4.2: each render-param
entry is serialized as `key=value` joined by `&`; numeric lists (e.g.
rescale bounds) serialize as comma-joined values; strings pass through. -/
def paramValueStr : ParamValue → List Char
  | ParamValue.str s => s
  | ParamValue.num n => (toString n).data
  | ParamValue.numList l =>
      List.intercalate ([',']) (l.map (fun n => (toString n).data))

/-- Modelled from the spec: `get_param_str` serialization of a whole
render-params mapping, insertion order preserved (spec §4.2). -/
def get_param_str (ps : List (List Char × ParamValue)) : List Char :=
  List.intercalate (['&']) (ps.map (fun kv => kv.1 ++ '=' :: paramValueStr kv.2))

/-- `DefaultRenderConfig.get_assets_params`: the `zip`-of-replicated-keys
join from the source. -/
def DefaultRenderConfig.get_assets_params (cfg : DefaultRenderConfig) : List Char :=
  let assets := cfg.assets.getD []
  let keys := List.replicate assets.length (("&assets=").data)
  (((keys.zip assets).map (fun kv => kv.1 ++ kv.2))).flatten

/-- `DefaultRenderConfig.get_render_params`: `f"&{get_param_str(...)}"`. -/
def DefaultRenderConfig.get_render_params (cfg : DefaultRenderConfig) : List Char :=
  '&' :: get_param_str cfg.render_params

/-- `DefaultRenderConfig.get_full_render_qs`.  Python truthiness of the
`collection` and `item` strings is modelled by emptiness tests. -/
def DefaultRenderConfig.get_full_render_qs (cfg : DefaultRenderConfig)
    (collection : List Char) (item : Option (List Char)) : List Char :=
  let collection_part := if collection ≠ [] then ("collection=").data ++ collection else []
  let item_part :=
    match item with
    | some i => if i ≠ [] then ("&item=").data ++ i else []
    | none => []
  collection_part ++ item_part ++ cfg.get_assets_params ++ cfg.get_render_params

/-- `COLLECTION_RENDER_CONFIG` (`pccommon/pccommon/render.py`): the static
collection-id → `DefaultRenderConfig` table, in source order. -/
def COLLECTION_RENDER_CONFIG : List (List Char × DefaultRenderConfig) :=
  [((("3dep-seamless").data),
    { assets := some [("data").data],
      render_params :=
        [((("colormap_name").data), ParamValue.str (("terrain").data)),
         ((("rescale").data), ParamValue.numList [-1000, 4000])],
      requires_token := true,
      mosaic_preview_zoom := some 8,
      mosaic_preview_coords := some [(47.1113 : ℚ), (-120.8578 : ℚ)],
      minzoom := 8 }),
   ((("alos-dem").data),
    { assets := some [("data").data],
      render_params :=
        [((("colormap_name").data), ParamValue.str (("terrain").data)),
         ((("rescale").data), ParamValue.numList [-1000, 4000])],
      mosaic_preview_zoom := some 8,
      mosaic_preview_coords := some [(35.6837 : ℚ), (138.4281 : ℚ)],
      requires_token := true,
      minzoom := 8 }),
   ((("aster-l1t").data),
    { assets := some [("VNIR").data],
      render_params :=
        [((("asset_bidx").data), ParamValue.str (("VNIR|2,3,1").data)),
         ((("nodata").data), ParamValue.num 0)],
      mosaic_preview_zoom := some 9,
      mosaic_preview_coords := some [(37.2141 : ℚ), (-104.2947 : ℚ)],
      minzoom := 9 }),
   ((("chloris-biomass").data),
    { assets := some [("data").data],
      render_params :=
        [((("colormap_name").data), ParamValue.str (("chloris-biomass").data)),
         ((("rescale").data), ParamValue.numList [1, 750000])],
      has_mosaic := false,
      mosaic_preview_zoom := some 2,
      mosaic_preview_coords := some [(30.0572 : ℚ), (80.1735 : ℚ)],
      requires_token := true,
      minzoom := 2 }),
   ((("cop-dem-glo-30").data),
    { assets := some [("data").data],
      render_params :=
        [((("colormap_name").data), ParamValue.str (("terrain").data)),
         ((("rescale").data), ParamValue.numList [-1000, 4000])],
      mosaic_preview_zoom := some 8,
      mosaic_preview_coords := some [(30.0572 : ℚ), (80.1735 : ℚ)],
      requires_token := true,
      minzoom := 8 }),
   ((("cop-dem-glo-90").data),
    { assets := some [("data").data],
      render_params :=
        [((("colormap_name").data), ParamValue.str (("terrain").data)),
         ((("rescale").data), ParamValue.numList [-1000, 4000])],
      mosaic_preview_zoom := some 8,
      mosaic_preview_coords := some [(46.8776 : ℚ), (12.1444 : ℚ)],
      requires_token := true,
      minzoom := 8 }),
   ((("gap").data),
    { assets := some [("data").data],
      render_params :=
        [((("tile_format").data), ParamValue.str (("png").data)),
         ((("colormap_name").data), ParamValue.str (("gap-lulc").data))],
      mosaic_preview_zoom := some 7,
      mosaic_preview_coords := some [(26.7409 : ℚ), (-80.9714 : ℚ)],
      requires_token := false,
      minzoom := 5 }),
   ((("gnatsgo-rasters").data),
    { assets := some [("aws0_100").data],
      render_params :=
        [((("colormap_name").data), ParamValue.str (("cividis").data)),
         ((("rescale").data), ParamValue.numList [0, 600])],
      mosaic_preview_zoom := some 6,
      mosaic_preview_coords := some [(44.1454 : ℚ), (-112.6404 : ℚ)],
      requires_token := true,
      minzoom := 4 }),
   ((("goes-mcmip").data),
    { create_links := true,
      assets := some [("data").data],
      render_params :=
        [((("colormap_name").data), ParamValue.str (("gap-lulc").data))],
      mosaic_preview_zoom := some 13,
      mosaic_preview_coords := some [(39.95340 : ℚ), (-75.16333 : ℚ)],
      requires_token := true,
      minzoom := 6 }),
   ((("goes-cmi").data),
    { create_links := true,
      render_params :=
        [((("expression").data), ParamValue.str
            (("C02_2km_wm,0.45*C02_2km_wm+0.1*C03_2km_wm+0.45*C01_2km_wm,C01_2km_wm").data)),
         ((("nodata").data), ParamValue.num (-1)),
         ((("rescale").data), ParamValue.numList [1, 1000]),
         ((("color_formula").data), ParamValue.str
            (("Gamma RGB 2.5 Saturation 1.4 Sigmoidal RGB 2 0.7").data)),
         ((("resampling").data), ParamValue.str (("bilinear").data))],
      has_mosaic := true,
      mosaic_preview_zoom := some 4,
      mosaic_preview_coords := some [(33.4872 : ℚ), (-114.4842 : ℚ)],
      requires_token := true,
      minzoom := 2 }),
   ((("hgb").data),
    { assets := some [("aboveground").data],
      render_params :=
        [((("colormap_name").data), ParamValue.str (("greens").data)),
         ((("nodata").data), ParamValue.num 0),
         ((("rescale").data), ParamValue.numList [0, 255])],
      mosaic_preview_zoom := some 9,
      mosaic_preview_coords := some [(-7.641129 : ℚ), (39.162521 : ℚ)],
      minzoom := 2 }),
   ((("hrea").data),
    { assets := some [("estimated-brightness").data],
      render_params :=
        [((("colormap_name").data), ParamValue.str (("magma").data)),
         ((("rescale").data), ParamValue.numList [1, 200])],
      mosaic_preview_zoom := some 3,
      mosaic_preview_coords := some [(11.8280 : ℚ), (20.6367 : ℚ)],
      minzoom := 3 }),
   ((("io-lulc").data),
    { assets := some [("data").data],
      render_params :=
        [((("colormap_name").data), ParamValue.str (("io-lulc").data))],
      mosaic_preview_zoom := some 4,
      mosaic_preview_coords := some [(-0.8749 : ℚ), (109.8456 : ℚ)],
      minzoom := 4 }),
   ((("io-lulc-9-class").data),
    { assets := some [("data").data],
      render_params :=
        [((("colormap_name").data), ParamValue.str (("io-lulc-9-class").data))],
      mosaic_preview_zoom := some 4,
      mosaic_preview_coords := some [(-0.8749 : ℚ), (109.8456 : ℚ)],
      minzoom := 4 }),
   ((("jrc-gsw").data),
    { assets := some [("occurrence").data],
      render_params :=
        [((("colormap_name").data), ParamValue.str (("jrc-occurrence").data)),
         ((("nodata").data), ParamValue.num 0)],
      mosaic_preview_zoom := some 10,
      mosaic_preview_coords := some [(24.21647 : ℚ), (91.015209 : ℚ)],
      minzoom := 4 }),
   ((("landsat-8-c2-l2").data),
    { assets := some [("SR_B4").data, ("SR_B3").data, ("SR_B2").data],
      render_params :=
        [((("color_formula").data), ParamValue.str
            (("gamma RGB 2.7, saturation 1.5, sigmoidal RGB 15 0.55").data))],
      mosaic_preview_zoom := some 11,
      mosaic_preview_coords := some [(37.4069 : ℚ), (118.8188 : ℚ)],
      requires_token := true,
      minzoom := 8 }),
   ((("mobi").data),
    { create_links := false,
      assets := some [("SpeciesRichness_All").data],
      render_params :=
        [((("colormap_name").data), ParamValue.str (("magma").data)),
         ((("nodata").data), ParamValue.num 128),
         ((("rescale").data), ParamValue.str (("0,1").data))],
      requires_token := true,
      mosaic_preview_zoom := some 4,
      mosaic_preview_coords := some [(37.3052 : ℚ), (-85.8457 : ℚ)],
      minzoom := 3 }),
   ((("mtbs").data),
    { create_links := false,
      assets := some [("burn-severity").data],
      render_params :=
        [((("colormap_name").data), ParamValue.str (("mtbs-severity").data))],
      mosaic_preview_zoom := some 9,
      mosaic_preview_coords := some [(39.2234 : ℚ), (-122.6932 : ℚ)],
      minzoom := 3 }),
   ((("naip").data),
    { assets := some [("image").data],
      render_params :=
        [((("asset_bidx").data), ParamValue.str (("image|1,2,3").data))],
      mosaic_preview_zoom := some 13,
      mosaic_preview_coords := some [(36.0891 : ℚ), (-111.8577 : ℚ)],
      minzoom := 11 }),
   ((("nasadem").data),
    { assets := some [("elevation").data],
      render_params :=
        [((("colormap_name").data), ParamValue.str (("terrain").data)),
         ((("rescale").data), ParamValue.numList [-100, 4000])],
      mosaic_preview_zoom := some 7,
      mosaic_preview_coords := some [(-10.7270 : ℚ), (-74.7620 : ℚ)],
      requires_token := false,
      minzoom := 7 }),
   ((("nrcan-landcover").data),
    { assets := some [("landcover").data],
      render_params :=
        [((("colormap_name").data), ParamValue.str (("nrcan-lulc").data))],
      mosaic_preview_zoom := some 7,
      mosaic_preview_coords := some [(51.3913 : ℚ), (-124.8087 : ℚ)],
      requires_token := true,
      minzoom := 4 }),
   ((("sentinel-2-l2a").data),
    { assets := some [("visual").data],
      render_params :=
        [((("asset_bidx").data), ParamValue.str (("visual|1,2,3").data)),
         ((("nodata").data), ParamValue.num 0)],
      mosaic_preview_zoom := some 9,
      mosaic_preview_coords := some [(-16.4940 : ℚ), (124.0274 : ℚ)],
      requires_token := true,
      minzoom := 9 })]

/-- `STORAGE_ACCOUNTS_WITH_CDNS` (`pccommon/pccommon/render.py`). -/
def STORAGE_ACCOUNTS_WITH_CDNS : List (List Char) := [("naipeuwest").data]

/-- The literal tail matched by `BLOB_REGEX` after the captured account. -/
def blobPat : List Char := (".blob.core.windows.net").data

/-- The `([^/]+?)\.blob\.core\.windows\.net` part of `BLOB_REGEX` applied to
the characters after a chosen `'/'`: being lazy, the capture is the shortest
non-empty slash-free run that is immediately followed by
`.blob.core.windows.net`; the trailing `.*` always matches. -/
def findAccount : List Char → Option (List Char)
  | [] => none
  | c :: rest =>
    if c = '/' then none
    else if blobPat.isPrefixOf rest then some [c]
    else
      match findAccount rest with
      | some seg => some (c :: seg)
      | none => none

/-- `re.match(BLOB_REGEX, s)`: the greedy leading `.*` (which cannot cross a
newline) picks the rightmost `'/'` whose suffix matches, and the lazy group
is resolved by `findAccount`.  Returns `group(1)` when the match succeeds. -/
def blobGroup : List Char → Option (List Char)
  | [] => none
  | c :: rest =>
    if c = '\n' then none
    else
      match blobGroup rest with
      | some g => some g
      | none => if c = '/' then findAccount rest else none

/-- Python `str.replace(pat, repl)` — every non-overlapping occurrence,
scanning left to right.  Structural recursion on fuel; `fuel = s.length`
suffices because every step consumes at least one character (the call sites
use a non-empty `pat`). -/
def replaceAllAux (pat repl : List Char) : Nat → List Char → List Char
  | _, [] => []
  | 0, s => s
  | fuel + 1, c :: rest =>
    if pat.isPrefixOf (c :: rest) then
      repl ++ replaceAllAux pat repl fuel (rest.drop (pat.length - 1))
    else c :: replaceAllAux pat repl fuel rest

/-- Python `str.replace(pat, repl)` for non-empty `pat`. -/
def replaceAll (pat repl s : List Char) : List Char :=
  replaceAllAux pat repl s.length s

/-- `BlobCDN.transform_if_available` (`pccommon/pccommon/render.py`): when
the URL matches `BLOB_REGEX` and the captured account is in
`STORAGE_ACCOUNTS_WITH_CDNS`, run `str.replace("blob.core.windows",
"azureedge")` on the whole URL; otherwise return it unchanged. -/
def transform_if_available (asset_href : List Char) : List Char :=
  match blobGroup asset_href with
  | some g =>
    if g ∈ STORAGE_ACCOUNTS_WITH_CDNS then
      replaceAll (("blob.core.windows").data) (("azureedge").data) asset_href
    else asset_href
  | none => asset_href

/-- The declarative reading of a `BLOB_REGEX` match: some `'/'` with no
newline before it is followed by a non-empty slash-free account segment and
the literal `.blob.core.windows.net`. -/
def blobDecomp (s : List Char) : Prop :=
  ∃ pre seg suf, s = pre ++ '/' :: (seg ++ blobPat ++ suf) ∧
    seg ≠ [] ∧ '/' ∉ seg ∧ '\n' ∉ pre

/-- An RGBA pixel. -/
abbrev RGBA := Nat × Nat × Nat × Nat

/-- Modelled from the spec: `TRANSPARENT` comes from
`pcfuncs/funclib/stamps/stamp.py`, which is not under `src/`; spec §4.4 says
the overlay layer is fully transparent except for the drawn rectangles. -/
def TRANSPARENT : RGBA := (0, 0, 0, 0)

/-- A PIL image at the interface boundary: dimensions and a pixel map. -/
structure PILImage where
  width : Nat
  height : Nat
  pix : Nat → Nat → RGBA

/-- Modelled from the spec: the frame context carried by a `FrameStamp`
(`pcfuncs/funclib/stamps/stamp.py` is not under `src/`); spec §3 —
`frameNumber` is the 0-based index, `frameCount` the total. -/
structure FrameData where
  frame_number : Nat
  frame_count : Nat

/-- `BAR_HEIGHT` (`progress_bar.py`). -/
def BAR_HEIGHT : Int := 3

/-- `BG_PAD` (`progress_bar.py`): `0.2`, exact over `ℚ`. -/
def BG_PAD : ℚ := 1 / 5

/-- Python `int()` on a rational: truncation toward zero. -/
def pyInt (q : ℚ) : Int := if q < 0 then ⌈q⌉ else ⌊q⌋

/-- The `bar_width` computation of `ProgressBarStamp.apply`:
`int(image.width * (frame_number / (frame_count - 1)))`.  Python raises
`ZeroDivisionError` exactly when `frame_count == 1`, modelled by `none`. -/
def bar_width (w : Nat) (fr : FrameData) : Option Int :=
  if fr.frame_count = 1 then none
  else some (pyInt ((w : ℚ) * ((fr.frame_number : ℚ) / ((fr.frame_count : ℚ) - 1))))

/-- Modelled from the spec: PIL alpha compositing at the interface boundary
(spec §4.4) — a fully transparent overlay pixel preserves the base pixel, an
opaque one replaces it; the overlay built by the stamp only produces alpha
0 or 255. -/
def alphaComposite (base overlay : RGBA) : RGBA :=
  if overlay.2.2.2 = 0 then base else overlay

/-- The overlay layer built by `ProgressBarStamp.apply`: the blue bar
rectangle `((0, height - BAR_HEIGHT), (bar_width, height))` drawn over the
white halo rectangle offset up by `BG_PAD`, on a transparent ground.  PIL's
`rectangle` fills the inclusive pixel box of its two corners, truncating
float coordinates toward zero (`pyInt`); the blue rectangle is drawn second,
so it wins on the overlap. -/
def progressOverlay (h : Nat) (bw : Int) (x y : Nat) : RGBA :=
  if 0 ≤ (x : Int) ∧ (x : Int) ≤ bw ∧
      (h : Int) - BAR_HEIGHT ≤ (y : Int) ∧ (y : Int) ≤ (h : Int) then
    (0, 120, 212, 255)
  else if 0 ≤ (x : Int) ∧ (x : Int) ≤ bw ∧
      pyInt (((h : ℚ) - (BAR_HEIGHT : ℚ)) - BG_PAD) ≤ (y : Int) ∧
      (y : Int) ≤ pyInt ((h : ℚ) - BG_PAD) then
    (255, 255, 255, 255)
  else TRANSPARENT

/-- `ProgressBarStamp.apply` (`pcfuncs/funclib/stamps/progress_bar.py`):
compute the bar width, draw the two rectangles on a transparent overlay of
the image's size, and alpha-composite the overlay onto the image. -/
def ProgressBarStamp.apply (fr : FrameData) (image : PILImage) : Option PILImage :=
  (bar_width image.width fr).map (fun bw =>
    { width := image.width, height := image.height,
      pix := fun x y =>
        alphaComposite (image.pix x y) (progressOverlay image.height bw x y) })

/-- Outcome of the `/map` endpoint (`pctiler/pctiler/endpoints/item.py`)
restricted to the logic under `src/`: a 404 `Response` with its content, or
the template response carrying the full render query string appended to the
tilejson URL. -/
inductive MapResponse where
  | notFound (content : List Char)
  | preview (qs : List Char)
deriving DecidableEq

/-- The `map` endpoint: look the collection up in
`COLLECTION_RENDER_CONFIG`; absent → 404 with an explanatory message naming
the collection; present → the preview response built from
`get_full_render_qs(collection, item)`. -/
def mapEndpoint (collection item : List Char) : MapResponse :=
  match COLLECTION_RENDER_CONFIG.lookup collection with
  | none =>
    MapResponse.notFound ((("No item map available for collection ").data) ++ collection)
  | some render_config =>
    MapResponse.preview (render_config.get_full_render_qs collection (some item))

/-- The ordered list of values a parsed render-options mapping associates
with a key (`[]` when the key is absent). -/
def vals (m : List (List Char × List (List Char))) (k : List Char) : List (List Char) :=
  (m.lookup k).getD []

/-- The values the `'&'`-separated segments of a query fragment carry for a
key, in original order — the declarative counterpart of what the parser
accumulates. -/
def segVals (k : List Char) (segs : List (List Char)) : List (List Char) :=
  segs.filterMap (fun p => (splitEq p).bind (fun kv => if kv.1 = k then some kv.2 else none))

/-! ### Lemmas about the `BLOB_REGEX` matcher -/

theorem findAccount_cons (c : Char) (rest : List Char) :
    findAccount (c :: rest) =
      if c = '/' then none
      else if blobPat.isPrefixOf rest then some [c]
      else
        match findAccount rest with
        | some seg => some (c :: seg)
        | none => none := rfl

theorem blobGroup_cons (c : Char) (rest : List Char) :
    blobGroup (c :: rest) =
      if c = '\n' then none
      else
        match blobGroup rest with
        | some g => some g
        | none => if c = '/' then findAccount rest else none := rfl

theorem findAccount_some {l seg : List Char} (h : findAccount l = some seg) :
    ∃ suf, l = seg ++ blobPat ++ suf ∧ seg ≠ [] ∧ '/' ∉ seg := by
  induction l generalizing seg with
  | nil => simp [findAccount] at h
  | cons c rest ih =>
    rw [findAccount_cons] at h
    by_cases hc : c = '/'
    · rw [if_pos hc] at h
      exact absurd h (by simp)
    · rw [if_neg hc] at h
      by_cases hp : blobPat.isPrefixOf rest
      · rw [if_pos hp] at h
        have hseg : seg = [c] := by
          injection h with h2
          exact h2.symm
        obtain ⟨t, ht⟩ := List.isPrefixOf_iff_prefix.mp hp
        refine ⟨t, ?_, by simp [hseg], ?_⟩
        · subst hseg; simp [← ht]
        · subst hseg
          intro hx
          simp at hx
          exact hc hx.symm
      · rw [if_neg hp] at h
        have hrec : ∃ seg2, findAccount rest = some seg2 ∧ seg = c :: seg2 := by
          cases hfa : findAccount rest with
          | none => rw [hfa] at h; exact absurd h (by simp)
          | some seg2 =>
            rw [hfa] at h
            exact ⟨seg2, rfl, by injection h with h2; exact h2.symm⟩
        obtain ⟨seg2, hfa, hseg⟩ := hrec
        obtain ⟨suf, heq, hne, hmem⟩ := ih hfa
        refine ⟨suf, by simp [hseg, heq], by simp [hseg], ?_⟩
        subst hseg
        intro hx
        rcases List.mem_cons.mp hx with hx | hx
        · exact hc hx.symm
        · exact hmem hx

theorem findAccount_isSome {seg suf : List Char} (hne : seg ≠ []) (hmem : '/' ∉ seg) :
    (findAccount (seg ++ blobPat ++ suf)).isSome = true := by
  induction seg with
  | nil => exact absurd rfl hne
  | cons c rest ih =>
    have hc : ¬ (c = '/') := fun h => hmem (h ▸ List.mem_cons_self c rest)
    have hstep : ((c :: rest) ++ blobPat ++ suf : List Char) =
        c :: (rest ++ blobPat ++ suf) := by simp
    rw [hstep, findAccount_cons, if_neg hc]
    by_cases hp : blobPat.isPrefixOf (rest ++ blobPat ++ suf)
    · rw [if_pos hp]; rfl
    · rw [if_neg hp]
      by_cases hrest : rest = []
      · exact absurd
          (List.isPrefixOf_iff_prefix.mpr (by simp [hrest, List.prefix_append])) hp
      · have hmem2 : '/' ∉ rest := fun hx => hmem (List.mem_cons_of_mem c hx)
        have hrec := ih hrest hmem2
        cases hfa : findAccount (rest ++ blobPat ++ suf) with
        | none => rw [hfa] at hrec; simp at hrec
        | some s => simp

theorem blobGroup_isSome_iff (s : List Char) :
    (blobGroup s).isSome = true ↔ blobDecomp s := by
  induction s with
  | nil =>
    constructor
    · intro h
      simp [blobGroup] at h
    · rintro ⟨pre, seg, suf, heq, -, -, -⟩
      cases pre <;> simp at heq
  | cons c rest ih =>
    constructor
    · intro h
      rw [blobGroup_cons] at h
      by_cases hn : c = '\n'
      · rw [if_pos hn] at h
        simp at h
      · rw [if_neg hn] at h
        cases hbg : blobGroup rest with
        | some g =>
          obtain ⟨pre, seg, suf, heq, hne, hslash, hnl⟩ := ih.mp (by simp [hbg])
          refine ⟨c :: pre, seg, suf, by simp [heq], hne, hslash, ?_⟩
          intro hx
          rcases List.mem_cons.mp hx with hx | hx
          · exact hn hx.symm
          · exact hnl hx
        | none =>
          rw [hbg] at h
          by_cases hc : c = '/'
          · rw [if_pos hc] at h
            cases hfa : findAccount rest with
            | none => rw [hfa] at h; simp at h
            | some seg =>
              obtain ⟨suf, heq, hne, hslash⟩ := findAccount_some hfa
              exact ⟨[], seg, suf, by simp [hc, heq], hne, hslash, by simp⟩
          · rw [if_neg hc] at h
            simp at h
    · rintro ⟨pre, seg, suf, heq, hne, hslash, hnl⟩
      cases pre with
      | nil =>
        simp only [List.nil_append, List.cons.injEq] at heq
        obtain ⟨hc1, hc2⟩ := heq
        have hn : ¬ (c = '\n') := by
          rw [hc1]
          decide
        rw [blobGroup_cons, if_neg hn]
        cases hbg : blobGroup rest with
        | some g => simp
        | none =>
          have hfa := @findAccount_isSome seg suf hne hslash
          rw [← hc2] at hfa
          rw [if_pos hc1]
          exact hfa
      | cons p pre2 =>
        simp only [List.cons_append, List.cons.injEq] at heq
        obtain ⟨hc1, hc2⟩ := heq
        have hn : ¬ (c = '\n') := by
          intro hx
          refine hnl ?_
          rw [← hc1, ← hx]
          exact List.mem_cons_self _ _
        have hrest : (blobGroup rest).isSome = true := by
          refine ih.mpr ⟨pre2, seg, suf, ?_, hne, hslash, ?_⟩
          · simpa using hc2
          · intro hx
            exact hnl (List.mem_cons_of_mem p hx)
        rw [blobGroup_cons, if_neg hn]
        cases hbg : blobGroup rest with
        | some g => simp
        | none => rw [hbg] at hrest; simp at hrest

/-! ### Claim theorems for the BlobCDN rewriter -/

/-- C3 counterexample: for the allow-listed URL
`https://naipeuwest.blob.core.windows.net/blob.core.windows`, the rewriter
also rewrites the occurrence of `blob.core.windows` in the path, so the
claim that everything outside the host position is left untouched is false. -/
theorem claim_C3_counterexample :
    transform_if_available
        (("https://naipeuwest.blob.core.windows.net/blob.core.windows").data) =
      (("https://naipeuwest.azureedge.net/azureedge").data) ∧
    (("https://naipeuwest.azureedge.net/azureedge").data : List Char) ≠
      (("https://naipeuwest.azureedge.net/blob.core.windows").data) := by
  constructor
  · decide
  · decide

/-- C3 (amended): for a URL matched by `BLOB_REGEX` whose captured account
is allow-listed, `transform_if_available` replaces every occurrence of
`blob.core.windows` in the whole URL (not only the host position); any URL
that does not match, or whose account is not allow-listed, is returned
unchanged; and a match exists exactly when some `'/'` (with no newline
before it) is followed by a non-empty slash-free account segment and
`.blob.core.windows.net`. -/
theorem claim_C3_transform_amended :
    (∀ url : List Char, ¬ blobDecomp url → transform_if_available url = url) ∧
    (∀ url g, blobGroup url = some g → g ∉ STORAGE_ACCOUNTS_WITH_CDNS →
        transform_if_available url = url) ∧
    (∀ url g, blobGroup url = some g → g ∈ STORAGE_ACCOUNTS_WITH_CDNS →
        transform_if_available url =
          replaceAll (("blob.core.windows").data) (("azureedge").data) url) ∧
    (∀ url : List Char, (blobGroup url).isSome = true ↔ blobDecomp url) := by
  refine ⟨?_, ?_, ?_, blobGroup_isSome_iff⟩
  · intro url hd
    have : blobGroup url = none := by
      cases hbg : blobGroup url with
      | none => rfl
      | some g => exact absurd ((blobGroup_isSome_iff url).mp (by simp [hbg])) hd
    simp [transform_if_available, this]
  · intro url g hg hmem
    simp [transform_if_available, hg, hmem]
  · intro url g hg hmem
    simp [transform_if_available, hg, hmem]

/-- Witness for C3 (amended), at the counterexample URL. -/
theorem claim_C3_transform_amended_witness :
    transform_if_available
        (("https://naipeuwest.blob.core.windows.net/blob.core.windows").data) =
      replaceAll (("blob.core.windows").data) (("azureedge").data)
        (("https://naipeuwest.blob.core.windows.net/blob.core.windows").data) :=
  claim_C3_transform_amended.2.2.1
    (("https://naipeuwest.blob.core.windows.net/blob.core.windows").data)
    (("naipeuwest").data) (by decide) (by decide)

/-- C10: a URL in which no allow-listable account segment is preceded by a
`'/'` — in particular the scheme-less
`naipeuwest.blob.core.windows.net/x/y.tif` — passes through unchanged, even
though its account is in the allow-list, because `BLOB_REGEX` requires a
`'/'` before the captured segment. -/
theorem claim_C10_unanchored_passthrough :
    (∀ url : List Char,
        (¬ ∃ pre seg suf, url = pre ++ '/' :: (seg ++ blobPat ++ suf) ∧
            seg ≠ [] ∧ '/' ∉ seg) →
        transform_if_available url = url) ∧
    transform_if_available (("naipeuwest.blob.core.windows.net/x/y.tif").data) =
      (("naipeuwest.blob.core.windows.net/x/y.tif").data) := by
  constructor
  · intro url hno
    have hd : ¬ blobDecomp url := by
      rintro ⟨pre, seg, suf, heq, hne, hslash, -⟩
      exact hno ⟨pre, seg, suf, heq, hne, hslash⟩
    have : blobGroup url = none := by
      cases hbg : blobGroup url with
      | none => rfl
      | some g => exact absurd ((blobGroup_isSome_iff url).mp (by simp [hbg])) hd
    simp [transform_if_available, this]
  · decide

/-- Witness for C10, at a URL that holds no `'/'` at all. -/
theorem claim_C10_unanchored_passthrough_witness :
    transform_if_available (("naipeuwest.blob.core.windows.net").data) =
      (("naipeuwest.blob.core.windows.net").data) := by
  apply claim_C10_unanchored_passthrough.1
  rintro ⟨pre, seg, suf, heq, -, -⟩
  have : '/' ∈ (("naipeuwest.blob.core.windows.net").data : List Char) := by
    rw [heq]
    exact List.mem_append_right pre (List.mem_cons_self _ _)
  exact absurd this (by decide)

/-! ### Frame capping (C5) -/

/-- C5: `get_valid_frames` is exactly `min(frames, MAX_FRAMES)` and never
errors: a request above `MAX_FRAMES` is silently capped, one at or below it
is returned unchanged; the spec's examples 500 → 100 and 10 → 10 hold. -/
theorem claim_C5_valid_frames :
    (∀ frames : Int,
        get_valid_frames frames = min frames MAX_FRAMES ∧
        (frames ≤ MAX_FRAMES → get_valid_frames frames = frames) ∧
        (MAX_FRAMES ≤ frames → get_valid_frames frames = MAX_FRAMES)) ∧
    get_valid_frames 500 = 100 ∧ get_valid_frames 10 = 10 := by
  refine ⟨fun frames => ⟨rfl, fun h => min_eq_left h, fun h => min_eq_right h⟩, ?_, ?_⟩
  · show min (500 : Int) 100 = 100
    norm_num
  · show min (10 : Int) 100 = 10
    norm_num

/-- Witness for C5, at the spec's example inputs. -/
theorem claim_C5_valid_frames_witness :
    get_valid_frames 500 = MAX_FRAMES ∧ get_valid_frames 10 = 10 :=
  ⟨(claim_C5_valid_frames.1 500).2.2 (by norm_num [MAX_FRAMES]),
   (claim_C5_valid_frames.1 10).2.1 (by norm_num [MAX_FRAMES])⟩

/-! ### Progress bar division by zero (C7) -/

/-- C7 (code bug): the source divides by `frame_count - 1` with no special
case, so at `frame_count = 1` the width computation raises
`ZeroDivisionError` (modelled by `none`) and the stamp crashes rather than
drawing anything — the claim that it does not crash is the intended
behaviour, not the source's. -/
theorem claim_C7_single_frame_divzero :
    bar_width 256 ⟨0, 1⟩ = none ∧
    ProgressBarStamp.apply ⟨0, 1⟩
        { width := 256, height := 256, pix := fun _ _ => (0, 0, 0, 255) } = none := by
  constructor
  · rfl
  · rfl

/-! ### Full render query string (C1) -/

theorem flatten_zip_replicate (K : List Char) (l : List (List Char)) :
    (((List.replicate l.length K).zip l).map (fun kv => kv.1 ++ kv.2)).flatten =
      l.flatMap (fun a => K ++ a) := by
  induction l with
  | nil => rfl
  | cons a t ih =>
    simp only [List.length_cons, List.replicate_succ, List.zip_cons_cons,
      List.map_cons, List.flatten_cons, ih, List.flatMap_cons]

/-- C1: `get_full_render_qs` is the fixed-order concatenation of the
collection part, the optional item part, one `&assets=` segment per asset,
and a single `&` followed by the serialized render params; on the alos-dem
configuration with no item it yields exactly the spec's example string. -/
theorem claim_C1_full_render_qs :
    (∀ (cfg : DefaultRenderConfig) (collection : List Char) (item : Option (List Char)),
        collection ≠ [] → (∀ i, item = some i → i ≠ []) →
        cfg.get_full_render_qs collection item =
          (("collection=").data) ++ collection ++
          (match item with
           | some i => (("&item=").data) ++ i
           | none => []) ++
          ((cfg.assets.getD []).flatMap (fun a => (("&assets=").data) ++ a)) ++
          '&' :: get_param_str cfg.render_params) ∧
    (COLLECTION_RENDER_CONFIG.lookup (("alos-dem").data)).map
        (fun cfg => cfg.get_full_render_qs (("alos-dem").data) none) =
      some (("collection=alos-dem&assets=data&colormap_name=terrain&rescale=-1000,4000").data) := by
  constructor
  · intro cfg collection item hc hi
    unfold DefaultRenderConfig.get_full_render_qs
    rw [if_pos hc]
    cases item with
    | none =>
      simp [DefaultRenderConfig.get_assets_params,
        DefaultRenderConfig.get_render_params, flatten_zip_replicate,
        List.append_assoc]
    | some i =>
      simp [DefaultRenderConfig.get_assets_params,
        DefaultRenderConfig.get_render_params, flatten_zip_replicate,
        hi i rfl, List.append_assoc]
  · decide

/-- Witness for C1, at the alos-dem configuration of the table. -/
theorem claim_C1_full_render_qs_witness :
    DefaultRenderConfig.get_full_render_qs
        { render_params :=
            [((("colormap_name").data), ParamValue.str (("terrain").data)),
             ((("rescale").data), ParamValue.numList [-1000, 4000])],
          minzoom := 8,
          assets := some [("data").data],
          mosaic_preview_zoom := some 8,
          mosaic_preview_coords := some [(35.6837 : ℚ), (138.4281 : ℚ)],
          requires_token := true }
        (("alos-dem").data) none =
      (("collection=alos-dem&assets=data&colormap_name=terrain&rescale=-1000,4000").data) := by
  have h := claim_C1_full_render_qs.1
    { render_params :=
        [((("colormap_name").data), ParamValue.str (("terrain").data)),
         ((("rescale").data), ParamValue.numList [-1000, 4000])],
      minzoom := 8,
      assets := some [("data").data],
      mosaic_preview_zoom := some 8,
      mosaic_preview_coords := some [(35.6837 : ℚ), (138.4281 : ℚ)],
      requires_token := true }
    (("alos-dem").data) none (by decide) (fun i hi => by cases hi)
  rw [h]
  decide

/-! ### Lemmas about the render-params parser -/

theorem splitOnChar_length (sep : Char) (l : List Char) :
    (splitOnChar sep l).length = l.count sep + 1 := by
  induction l with
  | nil => rfl
  | cons c rest ih =>
    by_cases hc : c = sep
    · subst hc
      have h1 : splitOnChar c (c :: rest) = [] :: splitOnChar c rest := by
        simp [splitOnChar]
      rw [h1, List.length_cons, ih, List.count_cons_self]
    · have hcc : (c :: rest).count sep = rest.count sep :=
        List.count_cons_of_ne (Ne.symm hc) rest
      rw [hcc]
      cases hr : splitOnChar sep rest with
      | nil => rw [hr] at ih; simp at ih
      | cons h t =>
        rw [hr] at ih
        simp only [List.length_cons] at ih
        simp only [splitOnChar, if_neg hc, hr, List.length_cons]
        omega

theorem splitEq_none_iff (p : List Char) :
    splitEq p = none ↔ p.count '=' ≠ 1 := by
  have hlen := splitOnChar_length '=' p
  unfold splitEq
  cases h : splitOnChar '=' p with
  | nil => rw [h] at hlen; simp at hlen
  | cons a t =>
    cases t with
    | nil =>
      rw [h] at hlen
      simp only [List.length_cons, List.length_nil] at hlen
      simp
      omega
    | cons b t2 =>
      cases t2 with
      | nil =>
        rw [h] at hlen
        simp only [List.length_cons, List.length_nil] at hlen
        simp
        omega
      | cons d t3 =>
        rw [h] at hlen
        simp only [List.length_cons] at hlen
        simp
        omega

theorem splitOnChar_head (sep : Char) (l : List Char) :
    ∃ t, splitOnChar sep l = (l.takeWhile (fun c => !(c == sep))) :: t := by
  induction l with
  | nil => exact ⟨[], rfl⟩
  | cons c rest ih =>
    by_cases hc : c = sep
    · refine ⟨splitOnChar sep rest, ?_⟩
      have hb : (!(c == sep)) = false := by simp [beq_iff_eq, hc]
      simp [splitOnChar, hc, List.takeWhile_cons, hb]
    · obtain ⟨t, ht⟩ := ih
      refine ⟨t, ?_⟩
      have hb : (!(c == sep)) = true := by simp [beq_iff_eq, hc]
      simp [splitOnChar, hc, ht, List.takeWhile_cons, hb]

theorem splitEq_some_fst {p : List Char} {kv : List Char × List Char}
    (h : splitEq p = some kv) : kv.1 = p.takeWhile (fun c => !(c == '=')) := by
  obtain ⟨t, ht⟩ := splitOnChar_head '=' p
  unfold splitEq at h
  rw [ht] at h
  cases t with
  | nil => simp at h
  | cons b t2 =>
    cases t2 with
    | nil =>
      simp only [Option.some.injEq] at h
      rw [← h]
    | cons d t3 => simp at h

theorem vals_nil (k : List Char) : vals [] k = [] := rfl

theorem vals_cons (a : List Char) (l : List (List Char))
    (m : List (List Char × List (List Char))) (k : List Char) :
    vals ((a, l) :: m) k = if k = a then l else vals m k := by
  by_cases h : k = a
  · simp [vals, List.lookup, h]
  · have hb : (k == a) = false := by simp [beq_iff_eq, h]
    simp [vals, List.lookup, hb, h]

theorem lookup_cons_ne (a k : List Char) (l : List (List Char))
    (m : List (List Char × List (List Char))) (h : ¬ (k = a)) :
    ((a, l) :: m).lookup k = m.lookup k := by
  have hb : (k == a) = false := by simp [beq_iff_eq, h]
  simp [List.lookup, hb]

theorem vals_map_update_ne (m : List (List Char × List (List Char)))
    (k0 v k : List Char) (hk : ¬ (k = k0)) :
    vals (m.map (fun kv => if kv.1 = k0 then (kv.1, kv.2 ++ [v]) else kv)) k =
      vals m k := by
  induction m with
  | nil => rfl
  | cons hd t ih =>
    obtain ⟨a, l⟩ := hd
    by_cases ha : a = k0
    · have hka : ¬ (k = a) := fun hx => hk (hx.trans ha)
      simp only [List.map_cons, if_pos ha, vals_cons, if_neg hka, ih]
    · simp only [List.map_cons, if_neg ha, vals_cons, ih]

theorem vals_map_update_eq (m : List (List Char × List (List Char)))
    (k0 v : List Char) (hs : (m.lookup k0).isSome = true) :
    vals (m.map (fun kv => if kv.1 = k0 then (kv.1, kv.2 ++ [v]) else kv)) k0 =
      vals m k0 ++ [v] := by
  induction m with
  | nil => simp [List.lookup] at hs
  | cons hd t ih =>
    obtain ⟨a, l⟩ := hd
    by_cases ha : a = k0
    · subst ha
      simp [List.map_cons, vals_cons]
    · have hka : ¬ (k0 = a) := fun hx => ha hx.symm
      have hs2 : (t.lookup k0).isSome = true := by
        rwa [lookup_cons_ne a k0 l t hka] at hs
      simp only [List.map_cons, if_neg ha, vals_cons, if_neg hka, ih hs2]

theorem vals_append_single (m : List (List Char × List (List Char)))
    (a k : List Char) (l : List (List Char)) :
    vals (m ++ [(a, l)]) k =
      if (m.lookup k).isSome then vals m k
      else (if k = a then l else []) := by
  induction m with
  | nil =>
    simp [vals_nil, vals_cons, List.lookup]
  | cons hd t ih =>
    obtain ⟨b, lb⟩ := hd
    by_cases hk : k = b
    · subst hk
      simp [vals_cons, List.lookup]
    · have hb : (k == b) = false := by simp [beq_iff_eq, hk]
      simp only [List.cons_append, vals_cons, if_neg hk, ih, List.lookup, hb]

theorem vals_addOption (m : List (List Char × List (List Char))) (k0 v k : List Char) :
    vals (addOption m k0 v) k = if k = k0 then vals m k ++ [v] else vals m k := by
  unfold addOption
  by_cases hs : (m.lookup k0).isSome = true
  · rw [if_pos hs]
    by_cases hk : k = k0
    · subst hk
      rw [if_pos rfl, vals_map_update_eq m k v hs]
    · rw [if_neg hk, vals_map_update_ne m k0 v k hk]
  · rw [if_neg hs, vals_append_single]
    by_cases hk : k = k0
    · subst hk
      have hnone : m.lookup k = none := by
        cases h : m.lookup k with
        | none => rfl
        | some x => rw [h] at hs; simp at hs
      rw [if_pos rfl, hnone]
      simp [vals, hnone]
    · rw [if_neg hk]
      by_cases hsk : (m.lookup k).isSome = true
      · rw [if_pos hsk, if_neg hk]
      · have hnone : m.lookup k = none := by
          cases h : m.lookup k with
          | none => rfl
          | some x => rw [h] at hsk; simp at hsk
        rw [if_neg hsk, if_neg hk]
        simp [vals, hnone]

theorem parseSegs_isSome_iff (segs : List (List Char))
    (m : List (List Char × List (List Char))) :
    (parseSegs m segs).isSome = true ↔ ∀ p ∈ segs, (splitEq p).isSome = true := by
  induction segs generalizing m with
  | nil => simp [parseSegs]
  | cons p rest ih =>
    cases hp : splitEq p with
    | none => simp [parseSegs, hp]
    | some kv => simp [parseSegs, hp, ih]

theorem parseSegs_vals (segs : List (List Char))
    (m m2 : List (List Char × List (List Char)))
    (h : parseSegs m segs = some m2) (k : List Char) :
    vals m2 k = vals m k ++ segVals k segs := by
  induction segs generalizing m with
  | nil =>
    simp only [parseSegs, Option.some.injEq] at h
    subst h
    simp [segVals]
  | cons p rest ih =>
    cases hp : splitEq p with
    | none => simp [parseSegs, hp] at h
    | some kv =>
      simp only [parseSegs, hp] at h
      rw [ih _ h, vals_addOption]
      by_cases hk : kv.1 = k
      · rw [if_pos hk.symm]
        simp [segVals, List.filterMap_cons, hp, hk, List.append_assoc]
      · rw [if_neg (fun hx => hk hx.symm)]
        simp [segVals, List.filterMap_cons, hp, hk]

theorem segVals_length (k : List Char) (segs : List (List Char))
    (hall : ∀ p ∈ segs, (splitEq p).isSome = true) :
    (segVals k segs).length =
      segs.countP (fun p => p.takeWhile (fun c => !(c == '=')) == k) := by
  induction segs with
  | nil => rfl
  | cons p rest ih =>
    have hp := hall p (by simp)
    obtain ⟨kv, hkv⟩ := Option.isSome_iff_exists.mp hp
    have hfst := splitEq_some_fst hkv
    have hrest := ih (fun q hq => hall q (by simp [hq]))
    by_cases hk : kv.1 = k
    · have hpred : (p.takeWhile (fun c => !(c == '=')) == k) = true := by
        rw [← hfst, beq_iff_eq]
        exact hk
      have hseg : segVals k (p :: rest) = kv.2 :: segVals k rest := by
        simp [segVals, List.filterMap_cons, hkv, hk]
      rw [hseg, List.length_cons, hrest,
        List.countP_cons_of_pos (fun q => q.takeWhile (fun c => !(c == '=')) == k) rest hpred]
    · have hpred : (p.takeWhile (fun c => !(c == '=')) == k) = false := by
        rw [← hfst]
        simp [beq_iff_eq, hk]
      have hseg : segVals k (p :: rest) = segVals k rest := by
        simp [segVals, List.filterMap_cons, hkv, hk]
      rw [hseg, hrest,
        List.countP_cons_of_neg (fun q => q.takeWhile (fun c => !(c == '=')) == k) rest
          (by simp [hpred])]

theorem validate_render_params_isOk_iff (v : List Char) :
    (validate_render_params v).isOk = true ↔
      ((∀ p ∈ splitOnChar '&' v, p.count '=' = 1) ∧
       (splitOnChar '&' v).countP
           (fun p => p.takeWhile (fun c => !(c == '=')) == collectionKey) = 1) := by
  cases hm : get_render_options v with
  | none =>
    have hred : validate_render_params v = Except.error (("Invalid render_params").data) := by
      unfold validate_render_params
      rw [hm]
    rw [hred]
    constructor
    · intro h
      simp [Except.isOk, Except.toBool] at h
    · rintro ⟨hall, -⟩
      have hsome : (parseSegs [] (splitOnChar '&' v)).isSome = true := by
        rw [parseSegs_isSome_iff]
        intro p hp
        cases hsp : splitEq p with
        | none => exact absurd ((splitEq_none_iff p).mp hsp) (by simp [hall p hp])
        | some kv => rfl
      rw [show get_render_options v = parseSegs [] (splitOnChar '&' v) from rfl] at hm
      rw [hm] at hsome
      simp at hsome
  | some m =>
    have hall : ∀ p ∈ splitOnChar '&' v, (splitEq p).isSome = true := by
      rw [← parseSegs_isSome_iff _ ([])]
      rw [show parseSegs [] (splitOnChar '&' v) = get_render_options v from rfl, hm]
      rfl
    have hcount : ∀ p ∈ splitOnChar '&' v, p.count '=' = 1 := by
      intro p hp
      by_contra hne
      have hnone := (splitEq_none_iff p).mpr hne
      have hps := hall p hp
      rw [hnone] at hps
      simp at hps
    have hvals : vals m collectionKey = segVals collectionKey (splitOnChar '&' v) := by
      have := parseSegs_vals (splitOnChar '&' v) [] m hm collectionKey
      simpa [vals_nil] using this
    have hlen : (vals m collectionKey).length =
        (splitOnChar '&' v).countP
          (fun p => p.takeWhile (fun c => !(c == '=')) == collectionKey) := by
      rw [hvals, segVals_length _ _ hall]
    have hred : validate_render_params v =
        (match m.lookup collectionKey with
         | none => Except.error (("Missing collection in render_params").data)
         | some l =>
           if l.length ≠ 1 then
             Except.error (("Multiple collections in render_params").data)
           else Except.ok v) := by
      unfold validate_render_params
      rw [hm]
    cases hl : m.lookup collectionKey with
    | none =>
      have hred2 : validate_render_params v =
          Except.error (("Missing collection in render_params").data) := by
        rw [hred, hl]
      have hzero : vals m collectionKey = [] := by simp [vals, hl]
      rw [hzero] at hlen
      rw [hred2]
      constructor
      · intro h
        simp [Except.isOk, Except.toBool] at h
      · rintro ⟨-, hcp⟩
        rw [← hlen] at hcp
        simp at hcp
    | some l =>
      have hred2 : validate_render_params v =
          (if l.length ≠ 1 then
            Except.error (("Multiple collections in render_params").data)
          else Except.ok v) := by
        rw [hred, hl]
      have hv : vals m collectionKey = l := by simp [vals, hl]
      rw [hv] at hlen
      rw [hred2]
      by_cases hlone : l.length = 1
      · rw [if_neg (by omega)]
        constructor
        · intro hx
          exact ⟨hcount, by omega⟩
        · intro hx
          rfl
      · rw [if_pos (by omega)]
        constructor
        · intro h
          simp [Except.isOk, Except.toBool] at h
        · rintro ⟨-, hcp⟩
          omega

theorem validate_unit_isOk_iff (u : List Char) :
    (validate_unit u).isOk = true ↔ u ∈ unitKeys := by
  unfold validate_unit
  by_cases h : u ∈ unitKeys
  · simp [h, Except.isOk, Except.toBool]
  · simp [h, Except.isOk, Except.toBool]

/-! ### Progress-bar geometry (C6) -/

theorem pyInt_natCast (n : Nat) : pyInt ((n : ℚ)) = (n : Int) := by
  unfold pyInt
  rw [if_neg (not_lt.mpr (by positivity))]
  exact_mod_cast Int.floor_natCast n

theorem floor_le_pyInt (q : ℚ) : ⌊q⌋ ≤ pyInt q := by
  unfold pyInt
  by_cases h : q < 0
  · rw [if_pos h]
    exact Int.floor_le_ceil q
  · rw [if_neg h]

theorem whiteY0_ge (h : Nat) :
    ((h : Int) - 4) ≤ pyInt (((h : ℚ) - (BAR_HEIGHT : ℚ)) - BG_PAD) := by
  refine le_trans ?_ (floor_le_pyInt _)
  rw [Int.le_floor]
  push_cast [BAR_HEIGHT, BG_PAD]
  linarith

theorem alphaComposite_transparent (base : RGBA) :
    alphaComposite base TRANSPARENT = base := rfl

theorem progressOverlay_outside (h : Nat) (bw : Int) (x y : Nat)
    (hxy : bw < (x : Int) ∨ (y : Int) < (h : Int) - 4) :
    progressOverlay h bw x y = TRANSPARENT := by
  unfold progressOverlay
  rcases hxy with hx | hy
  · rw [if_neg (fun hc => absurd hc.2.1 (by omega)),
      if_neg (fun hc => absurd hc.2.1 (by omega))]
  · have hb3 : BAR_HEIGHT = 3 := rfl
    have hwhite := whiteY0_ge h
    rw [if_neg (fun hc => by have := hc.2.2.1; rw [hb3] at this; omega),
      if_neg (fun hc => by have := hc.2.2.1; omega)]

/-- C6: for `frame_count ≥ 2` the stamp succeeds, the drawn bar width is
`int(width * frame_number / (frame_count - 1))` (exact over `ℚ`), it is `0`
on the first frame and the full image width on the last, and every pixel
right of the bar or above the drawn rows is unchanged by the composite. -/
theorem claim_C6_progress_bar (fr : FrameData) (img : PILImage)
    (h2 : 2 ≤ fr.frame_count) :
    ∃ bw out,
      bar_width img.width fr = some bw ∧
      ProgressBarStamp.apply fr img = some out ∧
      bw = pyInt ((img.width : ℚ) *
        ((fr.frame_number : ℚ) / ((fr.frame_count : ℚ) - 1))) ∧
      (fr.frame_number = 0 → bw = 0) ∧
      (fr.frame_number = fr.frame_count - 1 → bw = (img.width : Int)) ∧
      (∀ x y : Nat, bw < (x : Int) ∨ (y : Int) < (img.height : Int) - 4 →
        out.pix x y = img.pix x y) := by
  have hne : ¬ (fr.frame_count = 1) := by omega
  have hbw : bar_width img.width fr =
      some (pyInt ((img.width : ℚ) *
        ((fr.frame_number : ℚ) / ((fr.frame_count : ℚ) - 1)))) := by
    unfold bar_width
    rw [if_neg hne]
  have happ : ProgressBarStamp.apply fr img =
      some { width := img.width, height := img.height,
             pix := fun x y =>
               alphaComposite (img.pix x y)
                 (progressOverlay img.height
                   (pyInt ((img.width : ℚ) *
                     ((fr.frame_number : ℚ) / ((fr.frame_count : ℚ) - 1)))) x y) } := by
    unfold ProgressBarStamp.apply
    rw [hbw, Option.map_some']
  refine ⟨_, _, hbw, happ, rfl, ?_, ?_, ?_⟩
  · intro h0
    rw [h0]
    simp [pyInt]
  · intro hlast
    have hcast : ((fr.frame_number : ℚ)) = (fr.frame_count : ℚ) - 1 := by
      rw [hlast]
      have h1 : (1 : Nat) ≤ fr.frame_count := by omega
      push_cast [Nat.cast_sub h1]
      ring
    have hden : ((fr.frame_count : ℚ) - 1) ≠ 0 := by
      have h2q : (2 : ℚ) ≤ (fr.frame_count : ℚ) := by exact_mod_cast h2
      intro hzero
      rw [sub_eq_zero] at hzero
      rw [hzero] at h2q
      norm_num at h2q
    rw [hcast, div_self hden, mul_one, pyInt_natCast]
  · intro x y hxy
    have hov := progressOverlay_outside img.height
      (pyInt ((img.width : ℚ) *
        ((fr.frame_number : ℚ) / ((fr.frame_count : ℚ) - 1)))) x y hxy
    show alphaComposite (img.pix x y)
        (progressOverlay img.height
          (pyInt ((img.width : ℚ) *
            ((fr.frame_number : ℚ) / ((fr.frame_count : ℚ) - 1)))) x y) =
      img.pix x y
    rw [hov, alphaComposite_transparent]

/-- Witness for C6, at frame 0 of 10 on a 256 × 256 image. -/
theorem claim_C6_progress_bar_witness :
    ∃ bw out,
      bar_width 256 ⟨0, 10⟩ = some bw ∧
      ProgressBarStamp.apply ⟨0, 10⟩
          { width := 256, height := 256, pix := fun _ _ => (1, 2, 3, 255) } = some out ∧
      bw = pyInt ((((256 : Nat)) : ℚ) * ((((0 : Nat)) : ℚ) / ((((10 : Nat)) : ℚ) - 1))) ∧
      ((0 : Nat) = 0 → bw = 0) ∧
      ((0 : Nat) = 10 - 1 → bw = ((256 : Nat) : Int)) ∧
      (∀ x y : Nat, bw < (x : Int) ∨ (y : Int) < (((256 : Nat)) : Int) - 4 →
        out.pix x y = (fun _ _ => ((1 : Nat), (2 : Nat), (3 : Nat), (255 : Nat))) x y) :=
  claim_C6_progress_bar ⟨0, 10⟩
    { width := 256, height := 256, pix := fun _ _ => (1, 2, 3, 255) } (by decide)

/-! ### Animation request validation (C2) -/

/-- C2: construction of an `AnimationRequest` is accepted exactly when every
`'&'`-segment of `render_params` holds exactly one `'='`, exactly one
segment's key is `collection`, and the unit is one of the six delta units;
when the unit is invalid the error message enumerates the valid set. -/
theorem claim_C2_validation_iff :
    (∀ render_params unit : List Char,
        animationRequestAccepted render_params unit = true ↔
          ((∀ p ∈ splitOnChar '&' render_params, p.count '=' = 1) ∧
           (splitOnChar '&' render_params).countP
               (fun p => p.takeWhile (fun c => !(c == '=')) == collectionKey) = 1 ∧
           unit ∈ unitKeys)) ∧
    (∀ unit : List Char, unit ∉ unitKeys →
        validate_unit unit =
          Except.error
            (("Invalid unit. Must be one of: mins, hours, days, weeks, months, years").data)) := by
  constructor
  · intro render_params unit
    unfold animationRequestAccepted
    rw [Bool.and_eq_true, validate_render_params_isOk_iff, validate_unit_isOk_iff]
    constructor
    · rintro ⟨⟨h1, h2⟩, h3⟩
      exact ⟨h1, h2, h3⟩
    · rintro ⟨h1, h2, h3⟩
      exact ⟨⟨h1, h2⟩, h3⟩
  · intro unit h
    unfold validate_unit
    rw [if_neg h]
    exact congrArg Except.error (by decide)

/-- Witness for C2: a well-formed request is accepted, and the `decades`
unit draws the enumerating error message. -/
theorem claim_C2_validation_iff_witness :
    animationRequestAccepted (("collection=naip").data) (("days").data) = true ∧
    validate_unit (("decades").data) =
      Except.error
        (("Invalid unit. Must be one of: mins, hours, days, weeks, months, years").data) :=
  ⟨(claim_C2_validation_iff.1 (("collection=naip").data) (("days").data)).mpr
      ⟨by decide, by decide, by decide⟩,
   claim_C2_validation_iff.2 (("decades").data) (by decide)⟩

/-! ### Collection extraction after validation (C9) -/

/-- C9: whenever the render-params validator accepts, `get_collection`
succeeds and returns the single value stored under the `collection` key —
re-parsing inside `get_collection` cannot fail, since validation and
extraction run the same parser. -/
theorem claim_C9_get_collection (v : List Char)
    (h : (validate_render_params v).isOk = true) :
    ∃ m c, get_render_options v = some m ∧
      m.lookup collectionKey = some [c] ∧
      get_collection v = some c := by
  cases hm : get_render_options v with
  | none =>
    have hred : validate_render_params v = Except.error (("Invalid render_params").data) := by
      unfold validate_render_params
      rw [hm]
    rw [hred] at h
    simp [Except.isOk, Except.toBool] at h
  | some m =>
    have hred : validate_render_params v =
        (match m.lookup collectionKey with
         | none => Except.error (("Missing collection in render_params").data)
         | some l =>
           if l.length ≠ 1 then
             Except.error (("Multiple collections in render_params").data)
           else Except.ok v) := by
      unfold validate_render_params
      rw [hm]
    cases hl : m.lookup collectionKey with
    | none =>
      have hred2 : validate_render_params v =
          Except.error (("Missing collection in render_params").data) := by
        rw [hred, hl]
      rw [hred2] at h
      simp [Except.isOk, Except.toBool] at h
    | some l =>
      have hred2 : validate_render_params v =
          (if l.length ≠ 1 then
            Except.error (("Multiple collections in render_params").data)
          else Except.ok v) := by
        rw [hred, hl]
      rw [hred2] at h
      by_cases hlen : l.length = 1
      · obtain ⟨c, hc⟩ := List.length_eq_one.mp hlen
        subst hc
        refine ⟨m, c, rfl, hl, ?_⟩
        simp [get_collection, hm, hl]
      · rw [if_pos (by omega)] at h
        simp [Except.isOk, Except.toBool] at h

/-- Witness for C9, at `collection=naip`. -/
theorem claim_C9_get_collection_witness :
    ∃ m c, get_render_options (("collection=naip").data) = some m ∧
      m.lookup collectionKey = some [c] ∧
      get_collection (("collection=naip").data) = some c :=
  claim_C9_get_collection (("collection=naip").data) (by decide)

/-! ### Re-encoding of render params (C4) -/

/-- C4: parsing `collection=naip&asset=image&asset=visual` yields the
mapping with the repeated `asset` key in order; re-encoding reproduces both
`asset=` pairs and appends `tile_scale=2`; in general the encoder
re-serializes the parsed mapping as percent-encoded `key=value` pairs in
first-seen key order with values in original order plus the appended
`tile_scale=2`, and each key's value list is exactly the segment values in
original order. -/
theorem claim_C4_encoded_render_params :
    (get_render_options (("collection=naip&asset=image&asset=visual").data) =
      some [(collectionKey, [("naip").data]),
            ((("asset").data), [("image").data, ("visual").data])]) ∧
    (get_encoded_render_params (("collection=naip&asset=image&asset=visual").data) =
      some (("collection=naip&asset=image&asset=visual&tile_scale=2").data)) ∧
    (∀ v m, get_render_options v = some m →
        get_encoded_render_params v =
          some (List.intercalate (['&'])
            ((m.flatMap (fun kv => kv.2.map (fun x => kv.1 ++ '=' :: pyQuote x))) ++
              [(("tile_scale=2").data)]))) ∧
    (∀ v m, get_render_options v = some m → ∀ k,
        vals m k = segVals k (splitOnChar '&' v)) := by
  refine ⟨by decide, by decide, ?_, ?_⟩
  · intro v m h
    simp [get_encoded_render_params, h]
  · intro v m h k
    have := parseSegs_vals (splitOnChar '&' v) [] m h k
    simpa [vals_nil] using this

/-- Witness for C4, applying the general re-encoding equation at the
spec's repeated-key example. -/
theorem claim_C4_encoded_render_params_witness :
    get_encoded_render_params (("collection=naip&asset=image&asset=visual").data) =
      some (List.intercalate (['&'])
        (([(collectionKey, [("naip").data]),
           ((("asset").data), [("image").data, ("visual").data])].flatMap
            (fun kv => kv.2.map (fun x => kv.1 ++ '=' :: pyQuote x))) ++
          [(("tile_scale=2").data)])) :=
  claim_C4_encoded_render_params.2.2.1 (("collection=naip&asset=image&asset=visual").data)
    [(collectionKey, [("naip").data]),
     ((("asset").data), [("image").data, ("visual").data])] (by decide)

/-! ### The `/map` endpoint (C8) -/

/-- C8: a collection without a render-configuration entry gets a 404
response whose message names the collection (never an exception — the
endpoint is a total function in the embedding), and a collection with an
entry gets the preview response, not a 404. -/
theorem claim_C8_map_endpoint :
    (∀ collection item : List Char,
        COLLECTION_RENDER_CONFIG.lookup collection = none →
        mapEndpoint collection item =
          MapResponse.notFound
            ((("No item map available for collection ").data) ++ collection)) ∧
    (∀ collection item : List Char,
        (COLLECTION_RENDER_CONFIG.lookup collection).isSome = true →
        ∃ qs, mapEndpoint collection item = MapResponse.preview qs) := by
  constructor
  · intro collection item h
    unfold mapEndpoint
    rw [h]
  · intro collection item h
    obtain ⟨cfg, hc⟩ := Option.isSome_iff_exists.mp h
    refine ⟨cfg.get_full_render_qs collection (some item), ?_⟩
    unfold mapEndpoint
    rw [hc]

/-- Witness for C8: the unknown collection `foo` yields the explanatory 404;
the known collection `naip` yields a preview. -/
theorem claim_C8_map_endpoint_witness :
    mapEndpoint (("foo").data) (("item-1").data) =
      MapResponse.notFound
        ((("No item map available for collection ").data) ++ (("foo").data)) ∧
    ∃ qs, mapEndpoint (("naip").data) (("item-1").data) = MapResponse.preview qs :=
  ⟨claim_C8_map_endpoint.1 (("foo").data) (("item-1").data) (by decide),
   claim_C8_map_endpoint.2 (("naip").data) (("item-1").data) (by decide)⟩
